import Mathlib

/-!
Shallow embedding of `src/image_resizer_for_flux_lora_training/resize.py` and
verification of its specification.

Conventions of the embedding:
* Python `str` paths are `List Char`; the Lean `String` type is used for the
  short crop-suffix tags.
* Python machine behaviour: `int(q)` on a rational truncates toward zero
  (`pyInt`), and `//` on integers is floor division (`Int.fdiv`).
* A decoded PIL image is `Img`: a width, a height and a total pixel function
  (3-channel RGB values); `Img.crop` is PIL's `Image.crop` on an in-bounds box.
* Fallible effects (PIL decode, `Image.save`) are oracles returning
  `Except String Unit`; a Python `try/except Exception` block is a `match` on
  that result.
* `Image.resize((512, 512))` is modelled by its output dimensions only; the
  resampling kernel is not modelled.
-/

/-- RGB pixel value, one integer per channel (3-channel color representation). -/
abbrev Pixel := Int × Int × Int

/-- PIL fill color 'black', i.e. RGB (0,0,0). -/
def blackPixel : Pixel := (0, 0, 0)

/-- Decoded image: width, height, and pixel lookup (line 64 `w, h = img.size`). -/
structure Img where
  w : Int
  h : Int
  px : Int → Int → Pixel

/-- Crop box (x0, y0, x1, y1) as passed to PIL `Image.crop`. -/
structure CropRect where
  x0 : Int
  y0 : Int
  x1 : Int
  y1 : Int
  deriving DecidableEq, Repr

/-- PIL `Image.crop`: the result has size (x1-x0, y1-y0) and its pixel (x, y)
is the source pixel (x + x0, y + y0). -/
def Img.crop (img : Img) (r : CropRect) : Img :=
  { w := r.x1 - r.x0
    h := r.y1 - r.y0
    px := fun x y => img.px (x + r.x0) (y + r.y0) }

/-- Mode enum, lines 53-56 of resize.py (IntEnum with values 1, 2, 3). -/
inductive Mode where
  | CENTER_ONLY
  | NON_CENTER
  | ALL
  deriving DecidableEq, Repr

/-- Conversion from the integer CLI value to Mode: `Mode(args.mode)` combined
with argparse `choices=[1, 2, 3]` (line 132).  `none` models the argparse
usage error for a value outside the choices. -/
def Mode.ofInt? (m : Int) : Option Mode :=
  if m = 1 then some Mode.CENTER_ONLY
  else if m = 2 then some Mode.NON_CENTER
  else if m = 3 then some Mode.ALL
  else none

/-- Python `int()` applied to an exact rational: truncation toward zero,
num/den in lowest terms with a trucating integer division. Models
`int(w / target_ratio)` (line 66) and `int(h * target_ratio)` (line 83)
with the float arithmetic read as exact rational arithmetic (exact for the
only reachable ratio, 1.0). -/
def pyInt (q : ℚ) : ℤ := q.num.tdiv (q.den : ℤ)

/-- Rectangle level of `ImageProcessor.crop_vertical` (lines 63-78): the three
candidate boxes passed to `img.crop` and the suffix list, filtered by mode
exactly as the `if mode == ...` chain does (indices 1 / 0,2 / all). -/
def crop_vertical_rects (w h : Int) ( target_ratio : ℚ) (mode : Mode) :
    List CropRect × List String :=
  let new_height := pyInt ((w : ℚ) / target_ratio)
  let c0 : CropRect := ⟨0, 0, w, new_height⟩
  let c1 : CropRect := ⟨0, (h - new_height).fdiv 2, w,
                        (h - new_height).fdiv 2 + new_height⟩
  let c2 : CropRect := ⟨0, h - new_height, w, h⟩
  match mode with
  | Mode.CENTER_ONLY => ([c1], ["_C"])
  | Mode.NON_CENTER => ([c0, c2], ["_S", "_E"])
  | Mode.ALL => ([c0, c1, c2], ["_S", "_C", "_E"])

/-- Rectangle level of `ImageProcessor.crop_horizontal` (lines 80-95). -/
def crop_horizontal_rects (w h : Int) ( target_ratio : ℚ) (mode : Mode) :
    List CropRect × List String :=
  let new_width := pyInt ((h : ℚ) * target_ratio)
  let c0 : CropRect := ⟨0, 0, new_width, h⟩
  let c1 : CropRect := ⟨(w - new_width).fdiv 2, 0,
                        (w - new_width).fdiv 2 + new_width, h⟩
  let c2 : CropRect := ⟨w - new_width, 0, w, h⟩
  match mode with
  | Mode.CENTER_ONLY => ([c1], ["_C"])
  | Mode.NON_CENTER => ([c0, c2], ["_L", "_R"])
  | Mode.ALL => ([c0, c1, c2], ["_L", "_C", "_R"])

/-- Method `ImageProcessor.crop_vertical` (lines 63-78): the surviving crops are the
surviving rectangles applied to the image via `img.crop`. -/
def crop_vertical (img : Img) ( target_ratio : ℚ) (mode : Mode) :
    List Img × List String :=
  ((crop_vertical_rects img.w img.h target_ratio mode).1.map img.crop,
   (crop_vertical_rects img.w img.h target_ratio mode).2)

/-- Method `ImageProcessor.crop_horizontal` (lines 80-95). -/
def crop_horizontal (img : Img) ( target_ratio : ℚ) (mode : Mode) :
    List Img × List String :=
  ((crop_horizontal_rects img.w img.h target_ratio mode).1.map img.crop,
   (crop_horizontal_rects img.w img.h target_ratio mode).2)

/-- Crop step of `ImageProcessor.process_image` (lines 100-104):
`target_ratio = 1.0`, vertical algorithm iff `h > w`. -/
def process_crops (img : Img) (mode : Mode) : List Img × List String :=
  if img.h > img.w then crop_vertical img 1 mode else crop_horizontal img 1 mode

/-- Crop selection as a function of (w, h, mode) only, with the fixed
`target_ratio = 1.0` of line 101 and the `h > w` dispatch of line 103. -/
def cropSelection (w h : Int) (mode : Mode) : List CropRect × List String :=
  if h > w then crop_vertical_rects w h 1 mode
  else crop_horizontal_rects w h 1 mode

/-- Compositing step, lines 113-115: a square black canvas of side
`max_dim = max(crop.size)` with the crop pasted at offset
`((max_dim - w) // 2, (max_dim - h) // 2)`. -/
def composite (crop : Img) : Img :=
  let max_dim := max crop.w crop.h
  let ox := (max_dim - crop.w).fdiv 2
  let oy := (max_dim - crop.h).fdiv 2
  { w := max_dim
    h := max_dim
    px := fun x y =>
      if ox ≤ x ∧ x < ox + crop.w ∧ oy ≤ y ∧ y < oy + crop.h then
        crop.px (x - ox) (y - oy)
      else blackPixel }

/-- Line 116 `square.resize((512, 512))`, modelled by the target dimensions. -/
def resizedDims : Int × Int := (512, 512)

/-- Per-crop output of the loop body (lines 112-116): the composited square
canvas together with the dimensions of the final resized image. -/
def compose_and_resize (crop : Img) : Img × (Int × Int) :=
  (composite crop, resizedDims)

/-- In-memory outputs of `process_image` for one decoded image: each surviving
crop, composited and resized, paired with its suffix (the `zip` of line 112). -/
def process_outputs (img : Img) (mode : Mode) :
    List ((Img × (Int × Int)) × String) :=
  ((process_crops img mode).1.zip (process_crops img mode).2).map
    (fun cs => (compose_and_resize cs.1, cs.2))

/-- Posix `os.path.basename`: the part of the path after the last '/'
(everything if there is no '/'). -/
def pyBasename (p : List Char) : List Char :=
  (p.reverse.takeWhile (fun ch => ch ≠ '/')).reverse

/-- Removal of trailing '/' characters, Python `str.rstrip('/')`. -/
def rstripSlash (l : List Char) : List Char :=
  (l.reverse.dropWhile (fun ch => ch = '/')).reverse

/-- Posix `os.path.dirname`: the path up to and including the last '/', with
trailing slashes stripped unless the head is empty or consists of slashes
only. -/
def pyDirname (p : List Char) : List Char :=
  let head := (p.reverse.dropWhile (fun ch => ch ≠ '/')).reverse
  if head ≠ [] ∧ head.any (fun ch => ch ≠ '/') = true then rstripSlash head
  else head

/-- Posix `os.path.splitext`: split off the extension at the last '.', provided
that dot lies after the last '/' and the characters between the last '/' and
that dot are not all dots (so dotfiles such as `.bashrc` keep no extension). -/
def pySplitExt (p : List Char) : List Char × List Char :=
  let r := p.reverse
  let afterDot := r.takeWhile (fun ch => ch ≠ '.' ∧ ch ≠ '/')
  let rest := r.dropWhile (fun ch => ch ≠ '.' ∧ ch ≠ '/')
  match rest with
  | [] => (p, [])
  | ch :: before =>
    if ch = '.' then
      if (before.takeWhile (fun c2 => c2 ≠ '/')).all (fun c2 => c2 = '.') then
        (p, [])
      else (before.reverse, ch :: afterDot.reverse)
    else (p, [])

/-- Posix `os.path.join` for two components: the second component replaces the
first when absolute, otherwise a single '/' separator is inserted unless the
first component is empty or already ends in '/'. -/
def pyJoin (a b : List Char) : List Char :=
  if b.head? = some '/' then b
  else if a = [] ∨ a.getLast? = some '/' then a ++ b
  else a ++ '/' :: b

/-- Line 107: `output_dir = fs.join_paths(os.path.dirname(file_path), '..')`. -/
def output_dir (file_path : List Char) : List Char :=
  pyJoin (pyDirname file_path) "..".data

/-- Line 110: `base_filename, _ = fs.split_ext(fs.get_basename(file_path))`. -/
def base_filename (file_path : List Char) : List Char :=
  (pySplitExt (pyBasename file_path)).1

/-- Line 118: `output_path = fs.join_paths(output_dir,
f"(base_filename)(suffix).png")` with braces written as parentheses here. -/
def output_path (file_path : List Char) (suffix : String) : List Char :=
  pyJoin (output_dir file_path) (base_filename file_path ++ suffix.data ++ ".png".data)

/-- Output paths of one file's surviving crops in loop order (lines 112-118). -/
def crop_output_paths (file_path : List Char) (suffixes : List String) :
    List (List Char) :=
  suffixes.map (fun s => output_path file_path s)

/-- Sequential body of the save loop (lines 112-119) at the filesystem level:
`save` models `resized.save(output_path)` and may raise.  The loop writes each
path in order; a raise aborts the loop at that point, and the writes already
performed stay on disk (the function has no deletion).  Returns the list of
paths written by this call and the loop's outcome. -/
def save_loop (paths : List (List Char)) (save : List Char → Except String Unit) :
    List (List Char) × Except String Unit :=
  match paths with
  | [] => ([], Except.ok ())
  | p :: rest =>
    match save p with
    | Except.ok _ =>
        let r := save_loop rest save
        (p :: r.1, r.2)
    | Except.error e => ([], Except.error e)

/-- Result of one work item as observed by the driver: either success or a
logged failure carrying the offending file path and the exception message. -/
inductive PerFileResult where
  | ok (path : List Char)
  | failed (path : List Char) (msg : String)
  deriving DecidableEq, Repr

/-- Worker `process_image_worker` (lines 122-128): the whole per-file pipeline
is attempted inside `try`, and any `Exception` is caught and logged together
with `file_path`; nothing is re-raised.  The pipeline's fallible effects are
abstracted into the `outcome` oracle. -/
def process_image_worker (file_path : List Char) (mode : Mode)
    (outcome : List Char → Mode → Except String Unit) : PerFileResult :=
  match outcome file_path mode with
  | Except.ok _ => PerFileResult.ok file_path
  | Except.error e => PerFileResult.failed file_path e

/-- Observable result of one run of `main` (lines 130-160). -/
structure RunResult where
  exitCode : Nat
  work_items : List (List Char × Mode)
  results : List PerFileResult
  deriving Repr

/-- Driver `main` (lines 130-160).  argparse with `choices=[1, 2, 3]` exits
with the usage-error code 2 before anything else runs when the mode is
invalid.  Otherwise the `raw` subdirectory of the current working directory is
listed, names ending in '.png' or '.jpg' become work items, and `pool.map`
applies `process_image_worker` to every item; `main` itself then returns,
giving exit code 0 regardless of logged per-file failures. -/
def main_model (modeArg : Int) (cwd : List Char) (listing : List (List Char))
    (outcome : List Char → Mode → Except String Unit) : RunResult :=
  match Mode.ofInt? modeArg with
  | none => ⟨2, [], []⟩
  | some mode =>
    let input_dir := pyJoin cwd "raw".data
    let work_items := (listing.filter
        (fun f => ".png".data.isSuffixOf f || ".jpg".data.isSuffixOf f)).map
        (fun f => (pyJoin input_dir f, mode))
    ⟨0, work_items, work_items.map (fun it => process_image_worker it.1 it.2 outcome)⟩

/-! Basic lemmas -/

/-- Python int() of an integer-valued rational is that integer. -/
theorem pyInt_intCast (n : ℤ) : pyInt ((n : ℚ)) = n := by
  simp [pyInt, Rat.num_intCast, Rat.den_intCast]

/-- Floor division by the positive constant 2 agrees with Euclidean division. -/
theorem fdiv_two_eq_ediv (a : ℤ) : a.fdiv 2 = a / 2 :=
  Int.fdiv_eq_ediv a (by norm_num)

/-- takeWhile walks past a prefix whose elements all satisfy the predicate. -/
theorem takeWhile_append_sat {α : Type} (p : α → Bool) (l1 l2 : List α)
    (h : ∀ a ∈ l1, p a = true) :
    (l1 ++ l2).takeWhile p = l1 ++ l2.takeWhile p := by
  induction l1 with
  | nil => rfl
  | cons a t ih =>
    rw [List.cons_append, List.takeWhile_cons, if_pos (h a (List.mem_cons_self a t)),
      ih (fun b hb => h b (List.mem_cons_of_mem a hb)), List.cons_append]

/-- dropWhile discards a prefix whose elements all satisfy the predicate. -/
theorem dropWhile_append_sat {α : Type} (p : α → Bool) (l1 l2 : List α)
    (h : ∀ a ∈ l1, p a = true) :
    (l1 ++ l2).dropWhile p = l2.dropWhile p := by
  induction l1 with
  | nil => rfl
  | cons a t ih =>
    rw [List.cons_append, List.dropWhile_cons, if_pos (h a (List.mem_cons_self a t)),
      ih (fun b hb => h b (List.mem_cons_of_mem a hb))]

/-- takeWhile keeps a list all of whose elements satisfy the predicate. -/
theorem takeWhile_eq_self_of_sat {α : Type} (p : α → Bool) (l : List α)
    (h : ∀ a ∈ l, p a = true) : l.takeWhile p = l := by
  have h2 := takeWhile_append_sat p l [] h
  simpa using h2

/-! Claims -/

/-- C1: for every image with h > w and the fixed target_ratio 1.0, crop
selection uses the vertical algorithm; new_height = floor(w / target_ratio)
= w, and the three candidates are full-width rectangles of height w at
y = 0 (suffix _S), y = (h-w)//2 (suffix _C) and y = h-w (suffix _E); for a
1000 x 2000 image the crops are rows [0,1000), [500,1500), [1000,2000). -/
theorem claim_C1_vertical_crop_selection (w h : Int) (hvw : h > w) :
    (∀ mode, cropSelection w h mode = crop_vertical_rects w h 1 mode) ∧
    crop_vertical_rects w h 1 Mode.ALL =
      ([⟨0, 0, w, w⟩,
        ⟨0, (h - w).fdiv 2, w, (h - w).fdiv 2 + w⟩,
        ⟨0, h - w, w, h⟩], ["_S", "_C", "_E"]) ∧
    cropSelection 1000 2000 Mode.ALL =
      ([⟨0, 0, 1000, 1000⟩, ⟨0, 500, 1000, 1500⟩, ⟨0, 1000, 1000, 2000⟩],
       ["_S", "_C", "_E"]) := by
  refine ⟨fun mode => by simp [cropSelection, hvw], ?_,
    by norm_num [cropSelection, crop_vertical_rects, pyInt, Rat.num_ofNat, Rat.den_ofNat, Int.tdiv_one, fdiv_two_eq_ediv]⟩
  simp [crop_vertical_rects, pyInt_intCast]

/-- Witness for C1 at the concrete 1000 x 2000 image of the claim. -/
theorem claim_C1_vertical_crop_selection_witness :
    crop_vertical_rects 1000 2000 1 Mode.ALL =
      ([⟨0, 0, 1000, 1000⟩, ⟨0, 500, 1000, 1500⟩, ⟨0, 1000, 1000, 2000⟩],
       ["_S", "_C", "_E"]) := by
  have hgen := (claim_C1_vertical_crop_selection 1000 2000 (by decide)).2.1
  rw [hgen]
  norm_num [fdiv_two_eq_ediv]

/-- C2: for every image with h <= w (square images count as horizontal) and
target_ratio 1.0, crop selection uses the horizontal algorithm; new_width =
floor(h * target_ratio) = h, and the three candidates are full-height
rectangles of width h at x = 0 (_L), x = (w-h)//2 (_C) and x = w-h (_R). -/
theorem claim_C2_horizontal_crop_selection (w h : Int) (hhw : h ≤ w) :
    (∀ mode, cropSelection w h mode = crop_horizontal_rects w h 1 mode) ∧
    crop_horizontal_rects w h 1 Mode.ALL =
      ([⟨0, 0, h, h⟩,
        ⟨(w - h).fdiv 2, 0, (w - h).fdiv 2 + h, h⟩,
        ⟨w - h, 0, w, h⟩], ["_L", "_C", "_R"]) := by
  refine ⟨fun mode => by simp [cropSelection, not_lt.mpr hhw], ?_⟩
  simp [crop_horizontal_rects, pyInt_intCast]

/-- Witness for C2 at the square 5 x 5 image: the tie h = w dispatches to the
horizontal algorithm and all three crops are the full image. -/
theorem claim_C2_horizontal_crop_selection_witness :
    cropSelection 5 5 Mode.ALL =
      ([⟨0, 0, 5, 5⟩, ⟨0, 0, 5, 5⟩, ⟨0, 0, 5, 5⟩], ["_L", "_C", "_R"]) := by
  have h1 := (claim_C2_horizontal_crop_selection 5 5 (by decide)).1 Mode.ALL
  have h2 := (claim_C2_horizontal_crop_selection 5 5 (by decide)).2
  rw [h1, h2]
  norm_num [fdiv_two_eq_ediv]

/-- C3: the mode filters the three candidates without deduplication:
CENTER_ONLY keeps exactly index 1, NON_CENTER exactly indices 0 and 2 in
order, ALL all three in order; the emitted suffixes are pairwise distinct
whatever the crops contain, and the output counts are 1, 2 and 3. -/
theorem claim_C3_mode_filter (w h : Int) (a b c : CropRect)
    (sa sb sc : String)
    (hall : cropSelection w h Mode.ALL = ([a, b, c], [sa, sb, sc])) :
    cropSelection w h Mode.CENTER_ONLY = ([b], [sb]) ∧
    cropSelection w h Mode.NON_CENTER = ([a, c], [sa, sc]) ∧
    sa ≠ sb ∧ sb ≠ sc ∧ sa ≠ sc ∧
    (cropSelection w h Mode.CENTER_ONLY).1.length = 1 ∧
    (cropSelection w h Mode.NON_CENTER).1.length = 2 ∧
    (cropSelection w h Mode.ALL).1.length = 3 := by
  by_cases hvw : h > w
  · simp only [cropSelection, hvw, if_true, crop_vertical_rects,
      Prod.mk.injEq, List.cons.injEq, and_true] at hall ⊢
    obtain ⟨⟨ha, hb, hc⟩, hsa, hsb, hsc⟩ := hall
    subst ha; subst hb; subst hc; subst hsa; subst hsb; subst hsc
    simp
  · simp only [cropSelection, hvw, if_false, crop_horizontal_rects,
      Prod.mk.injEq, List.cons.injEq, and_true] at hall ⊢
    obtain ⟨⟨ha, hb, hc⟩, hsa, hsb, hsc⟩ := hall
    subst ha; subst hb; subst hc; subst hsa; subst hsb; subst hsc
    simp

/-- Witness for C3 at a 3 x 7 vertical image. -/
theorem claim_C3_mode_filter_witness :
    cropSelection 3 7 Mode.CENTER_ONLY = ([⟨0, 2, 3, 5⟩], ["_C"]) ∧
    cropSelection 3 7 Mode.NON_CENTER =
      ([⟨0, 0, 3, 3⟩, ⟨0, 4, 3, 7⟩], ["_S", "_E"]) ∧
    ("_S" : String) ≠ "_C" ∧ ("_C" : String) ≠ "_E" ∧ ("_S" : String) ≠ "_E" ∧
    (cropSelection 3 7 Mode.CENTER_ONLY).1.length = 1 ∧
    (cropSelection 3 7 Mode.NON_CENTER).1.length = 2 ∧
    (cropSelection 3 7 Mode.ALL).1.length = 3 :=
  claim_C3_mode_filter 3 7 ⟨0, 0, 3, 3⟩ ⟨0, 2, 3, 5⟩ ⟨0, 4, 3, 7⟩
    "_S" "_C" "_E"
    (by norm_num [cropSelection, crop_vertical_rects, pyInt, Rat.num_ofNat, Rat.den_ofNat, Int.tdiv_one, fdiv_two_eq_ediv])

/-- C10: with positive dimensions and target_ratio 1.0, every selected crop
rectangle lies inside the source image and is at least 1 x 1: the orientation
dispatch guarantees the crop side fits the shorter image side. -/
theorem claim_C10_crop_rects_in_bounds (w h : Int) (mode : Mode)
    (hw : 0 < w) (hh : 0 < h) :
    ∀ r ∈ (cropSelection w h mode).1,
      0 ≤ r.x0 ∧ r.x0 ≤ r.x1 ∧ r.x1 ≤ w ∧
      0 ≤ r.y0 ∧ r.y0 ≤ r.y1 ∧ r.y1 ≤ h ∧
      1 ≤ r.x1 - r.x0 ∧ 1 ≤ r.y1 - r.y0 := by
  intro r hr
  by_cases hvw : h > w
  all_goals cases mode
  all_goals simp [cropSelection, hvw, crop_vertical_rects, crop_horizontal_rects,
    pyInt_intCast, fdiv_two_eq_ediv] at hr
  all_goals rcases hr with rfl | rfl | rfl
  all_goals (dsimp only; omega)

/-- Test crop used as concrete compositing input: 2 x 4 with coordinate
pixels. -/
def testCrop : Img := ⟨2, 4, fun x y => (x, y, 0)⟩

/-- C4: compositing allocates a square canvas of side max(crop.w, crop.h)
filled with black (0,0,0), pastes the crop at the floor-division offsets
((max_dim - w)//2, (max_dim - h)//2) — inside the paste region the canvas
shows the crop content, outside it stays black — and the final resize target
is exactly 512 x 512 (pixels are 3-channel by construction). -/
theorem claim_C4_compositing (crop : Img) :
    (composite crop).w = max crop.w crop.h ∧
    (composite crop).h = max crop.w crop.h ∧
    (∀ x y : Int, 0 ≤ x → x < crop.w → 0 ≤ y → y < crop.h →
      (composite crop).px (x + (max crop.w crop.h - crop.w).fdiv 2)
        (y + (max crop.w crop.h - crop.h).fdiv 2) = crop.px x y) ∧
    (∀ x y : Int,
      (x < (max crop.w crop.h - crop.w).fdiv 2 ∨
       (max crop.w crop.h - crop.w).fdiv 2 + crop.w ≤ x ∨
       y < (max crop.w crop.h - crop.h).fdiv 2 ∨
       (max crop.w crop.h - crop.h).fdiv 2 + crop.h ≤ y) →
      (composite crop).px x y = blackPixel) ∧
    (compose_and_resize crop).2 = (512, 512) := by
  refine ⟨rfl, rfl, ?_, ?_, rfl⟩
  · intro x y hx hxw hy hyh
    dsimp only [composite]
    generalize ((max crop.w crop.h - crop.w).fdiv 2) = ox
    generalize ((max crop.w crop.h - crop.h).fdiv 2) = oy
    rw [if_pos (by omega)]
    rw [show x + ox - ox = x from by omega, show y + oy - oy = y from by omega]
  · intro x y hdis
    dsimp only [composite] at hdis ⊢
    generalize ((max crop.w crop.h - crop.w).fdiv 2) = ox at hdis ⊢
    generalize ((max crop.w crop.h - crop.h).fdiv 2) = oy at hdis ⊢
    rcases hdis with h | h | h | h <;> rw [if_neg (by omega)]

/-- Witness for C4 on the concrete 2 x 4 test crop: the pixel pasted at the
offset corner shows the crop content and a pixel left of the paste region is
black. -/
theorem claim_C4_compositing_witness :
    (composite testCrop).px
        (0 + (max testCrop.w testCrop.h - testCrop.w).fdiv 2)
        (0 + (max testCrop.w testCrop.h - testCrop.h).fdiv 2) =
      testCrop.px 0 0 ∧
    (composite testCrop).px 0 3 = blackPixel := by
  constructor
  · exact (claim_C4_compositing testCrop).2.2.1 0 0 (by decide) (by decide)
      (by decide) (by decide)
  · exact (claim_C4_compositing testCrop).2.2.2.1 0 3 (by decide)

/-- Images with equal dimensions but different pixel content, used to witness
that crop selection only reads the size. -/
def imgA : Img := ⟨3, 2, fun _ _ => (1, 2, 3)⟩

/-- Second test image, same size as imgA, different content. -/
def imgB : Img := ⟨3, 2, fun x y => (x + y, 0, 0)⟩

/-- C9: crop selection is a deterministic pure function of (w, h, mode): the
crops of process_image are the rectangle selection of the dimensions applied
to the image, two images of equal size select identical rectangles and
suffixes, and re-running the pipeline on the same input yields identical
outputs. -/
theorem claim_C9_determinism (img img2 : Img) (mode : Mode)
    (hw : img.w = img2.w) (hh : img.h = img2.h) :
    (process_crops img mode).1 = (cropSelection img.w img.h mode).1.map img.crop ∧
    (process_crops img mode).2 = (cropSelection img.w img.h mode).2 ∧
    cropSelection img.w img.h mode = cropSelection img2.w img2.h mode ∧
    process_outputs img mode = process_outputs img mode := by
  refine ⟨?_, ?_, by rw [hw, hh], rfl⟩ <;>
  · unfold process_crops cropSelection crop_vertical crop_horizontal
    by_cases hv : img.h > img.w <;> simp [hv]

/-- Witness for C9: imgA and imgB have equal size and different pixels, and
select the same crop rectangles. -/
theorem claim_C9_determinism_witness :
    cropSelection imgA.w imgA.h Mode.ALL = cropSelection imgB.w imgB.h Mode.ALL :=
  (claim_C9_determinism imgA imgB Mode.ALL rfl rfl).2.2.1

/-- C6: with a valid mode, the driver completes with exit code 0, every work
item yields exactly one result through the worker (errors included), and any
item whose processing raises appears among the results as a logged failure
with its path — the batch is never aborted. -/
theorem claim_C6_failure_isolation (modeArg : Int) (mo : Mode)
    (hmode : Mode.ofInt? modeArg = some mo)
    (cwd : List Char) (listing : List (List Char))
    (outcome : List Char → Mode → Except String Unit) :
    (main_model modeArg cwd listing outcome).exitCode = 0 ∧
    (main_model modeArg cwd listing outcome).results.length =
      (main_model modeArg cwd listing outcome).work_items.length ∧
    (main_model modeArg cwd listing outcome).results =
      (main_model modeArg cwd listing outcome).work_items.map
        (fun it => process_image_worker it.1 it.2 outcome) ∧
    (∀ fp m e, (fp, m) ∈ (main_model modeArg cwd listing outcome).work_items →
      outcome fp m = Except.error e →
      PerFileResult.failed fp e ∈ (main_model modeArg cwd listing outcome).results) := by
  unfold main_model
  rw [hmode]
  refine ⟨rfl, by simp, rfl, ?_⟩
  intro fp m e hmem herr
  have hmap := List.mem_map_of_mem
    (fun it : List Char × Mode => process_image_worker it.1 it.2 outcome) hmem
  simpa [process_image_worker, herr] using hmap

/-- Outcome oracle for the C6 witness: processing of /t/raw/b.jpg raises, all
other files succeed. -/
def testOutcome : List Char → Mode → Except String Unit :=
  fun fp _ => if fp = "/t/raw/b.jpg".data then Except.error "boom" else Except.ok ()

/-- Witness for C6: in a batch of three listed names (two eligible), the
failing item is logged as a failure among the results. -/
theorem claim_C6_failure_isolation_witness :
    PerFileResult.failed "/t/raw/b.jpg".data "boom" ∈
      (main_model 3 "/t".data ["a.png".data, "b.jpg".data, "notes.txt".data]
        testOutcome).results :=
  (claim_C6_failure_isolation 3 Mode.ALL (by decide) "/t".data
      ["a.png".data, "b.jpg".data, "notes.txt".data] testOutcome).2.2.2
    "/t/raw/b.jpg".data Mode.ALL "boom" (by decide) rfl

/-- C7: a mode argument outside (1, 2, 3) produces argparse's usage error:
exit code 2 (nonzero), and no work item is enumerated or processed. -/
theorem claim_C7_invalid_mode (modeArg : Int)
    (h1 : modeArg ≠ 1) (h2 : modeArg ≠ 2) (h3 : modeArg ≠ 3)
    (cwd : List Char) (listing : List (List Char))
    (outcome : List Char → Mode → Except String Unit) :
    main_model modeArg cwd listing outcome = ⟨2, [], []⟩ ∧
    (main_model modeArg cwd listing outcome).exitCode ≠ 0 := by
  have hnone : Mode.ofInt? modeArg = none := by simp [Mode.ofInt?, h1, h2, h3]
  unfold main_model
  rw [hnone]
  refine ⟨rfl, ?_⟩
  dsimp only
  decide

/-- Witness for C7 at mode argument 7. -/
theorem claim_C7_invalid_mode_witness :
    main_model 7 [] [] (fun _ _ => Except.ok ()) = ⟨2, [], []⟩ ∧
    (main_model 7 [] [] (fun _ _ => Except.ok ())).exitCode ≠ 0 :=
  claim_C7_invalid_mode 7 (by decide) (by decide) (by decide) [] []
    (fun _ _ => Except.ok ())

/-- C8: if the save of one crop raises after earlier sibling crops of the same
file were written, the loop stops there, the already-written siblings remain
(exactly the earlier successes are on disk; nothing is deleted), and the error
surfaces only as the caught per-file failure at the worker boundary. -/
theorem claim_C8_no_rollback (pre : List (List Char)) (p : List Char)
    (post : List (List Char)) (save : List Char → Except String Unit)
    (e : String) (hpre : ∀ q ∈ pre, save q = Except.ok ())
    (hp : save p = Except.error e) :
    save_loop (pre ++ p :: post) save = (pre, Except.error e) ∧
    (∀ fp m, process_image_worker fp m
        (fun _ _ => (save_loop (pre ++ p :: post) save).2) =
      PerFileResult.failed fp e) := by
  have hmain : save_loop (pre ++ p :: post) save = (pre, Except.error e) := by
    induction pre with
    | nil => simp [save_loop, hp]
    | cons q rest ih =>
      have hq : save q = Except.ok () := hpre q (List.mem_cons_self q rest)
      have ih2 := ih (fun x hx => hpre x (List.mem_cons_of_mem q hx))
      simp [save_loop, hq, ih2]
  refine ⟨hmain, fun fp m => ?_⟩
  simp [process_image_worker, hmain]

/-- Save oracle for the C8 witness: writing o2 fails, any other write
succeeds. -/
def testSave : List Char → Except String Unit :=
  fun q => if q = "o2".data then Except.error "disk full" else Except.ok ()

/-- Witness for C8: with writes o1, o2, o3 and o2 failing, exactly o1 stays
written and a per-file failure is reported. -/
theorem claim_C8_no_rollback_witness :
    save_loop (["o1".data] ++ "o2".data :: ["o3".data]) testSave =
      (["o1".data], Except.error "disk full") ∧
    (∀ fp m, process_image_worker fp m
        (fun _ _ => (save_loop (["o1".data] ++ "o2".data :: ["o3".data]) testSave).2) =
      PerFileResult.failed fp "disk full") :=
  claim_C8_no_rollback ["o1".data] "o2".data ["o3".data] testSave "disk full"
    (by intro q hq; rcases List.mem_singleton.mp hq with rfl; rfl) rfl

/-- Witness for C10 at a 4 x 9 vertical image in mode ALL. -/
theorem claim_C10_crop_rects_in_bounds_witness :
    (0 : Int) ≤ (⟨0, 2, 4, 6⟩ : CropRect).x0 ∧
    (⟨0, 2, 4, 6⟩ : CropRect).x0 ≤ (⟨0, 2, 4, 6⟩ : CropRect).x1 ∧
    (⟨0, 2, 4, 6⟩ : CropRect).x1 ≤ 4 ∧
    (0 : Int) ≤ (⟨0, 2, 4, 6⟩ : CropRect).y0 ∧
    (⟨0, 2, 4, 6⟩ : CropRect).y0 ≤ (⟨0, 2, 4, 6⟩ : CropRect).y1 ∧
    (⟨0, 2, 4, 6⟩ : CropRect).y1 ≤ 9 ∧
    1 ≤ (⟨0, 2, 4, 6⟩ : CropRect).x1 - (⟨0, 2, 4, 6⟩ : CropRect).x0 ∧
    1 ≤ (⟨0, 2, 4, 6⟩ : CropRect).y1 - (⟨0, 2, 4, 6⟩ : CropRect).y0 :=
  claim_C10_crop_rects_in_bounds 4 9 Mode.ALL (by decide) (by decide)
    ⟨0, 2, 4, 6⟩
    (by norm_num [cropSelection, crop_vertical_rects, pyInt, Rat.num_ofNat,
      Rat.den_ofNat, Int.tdiv_one, fdiv_two_eq_ediv, List.mem_cons])

/-- C5: for an input path dir/name.ext whose directory part is nonempty and
does not end in '/', whose stem contains neither '/' nor '.' and is nonempty,
and whose extension characters contain neither '.' nor '/' (which covers both
.png and .jpg inputs), the output file is named base_filename plus suffix plus
".png" — the stem of the input with the extension always replaced by ".png" —
and it is placed in dir/.. , the directory one level above the input file's
containing directory. -/
theorem claim_C5_output_naming (c : Char) (d name tl : List Char)
    (suffix : String) (hc : c ≠ '/') (hn : name ≠ [])
    (hslash : '/' ∉ name) (hdot : '.' ∉ name)
    (htl : ∀ a ∈ tl, a ≠ '.' ∧ a ≠ '/') :
    base_filename ((c :: d).reverse ++ '/' :: (name ++ '.' :: tl)) = name ∧
    output_dir ((c :: d).reverse ++ '/' :: (name ++ '.' :: tl)) =
      (c :: d).reverse ++ "/..".data ∧
    output_path ((c :: d).reverse ++ '/' :: (name ++ '.' :: tl)) suffix =
      (c :: d).reverse ++ "/../".data ++ name ++ suffix.data ++ ".png".data := by
  obtain ⟨a0, rest, rfl⟩ : ∃ a0 rest, name = a0 :: rest := by
    rcases name with _ | ⟨a0, rest⟩
    · exact absurd rfl hn
    · exact ⟨a0, rest, rfl⟩
  rw [show ("/..".data : List Char) = '/' :: '.' :: '.' :: [] from by decide,
    show ("/../".data : List Char) = '/' :: '.' :: '.' :: '/' :: [] from by decide,
    show (".png".data : List Char) = '.' :: 'p' :: 'n' :: 'g' :: [] from by decide]
  have ha0 : a0 ≠ '/' := fun hcon => hslash (List.mem_cons.mpr (Or.inl hcon.symm))
  have hrev : ((c :: d).reverse ++ '/' :: ((a0 :: rest) ++ '.' :: tl)).reverse
      = (tl.reverse ++ '.' :: (a0 :: rest).reverse) ++ '/' :: c :: d := by
    simp [List.reverse_append, List.append_assoc]
  have hsat_ne : ∀ a ∈ tl.reverse ++ '.' :: (a0 :: rest).reverse,
      decide (a ≠ '/') = true := by
    intro a ha
    apply decide_eq_true
    intro hcon
    subst hcon
    rcases List.mem_append.mp ha with ha | ha
    · exact (htl '/' (List.mem_reverse.mp ha)).2 rfl
    · rcases List.mem_cons.mp ha with h' | ha
      · exact absurd h' (by decide)
      · exact hslash (List.mem_reverse.mp ha)
  have hbase : pyBasename ((c :: d).reverse ++ '/' :: ((a0 :: rest) ++ '.' :: tl))
      = (a0 :: rest) ++ '.' :: tl := by
    unfold pyBasename
    rw [hrev, takeWhile_append_sat _ _ _ hsat_ne, List.takeWhile_cons,
      if_neg (by decide)]
    simp
  have hdropSlash :
      ((c :: d).reverse ++ '/' :: ((a0 :: rest) ++ '.' :: tl)).reverse.dropWhile
        (fun ch => ch ≠ '/') = '/' :: c :: d := by
    rw [hrev, dropWhile_append_sat _ _ _ hsat_ne, List.dropWhile_cons,
      if_neg (by decide)]
  have hdir : pyDirname ((c :: d).reverse ++ '/' :: ((a0 :: rest) ++ '.' :: tl))
      = (c :: d).reverse := by
    unfold pyDirname
    rw [hdropSlash]
    have hne2 : ('/' :: c :: d).reverse ≠ [] := by simp
    have hany : (('/' :: c :: d).reverse).any (fun ch => ch ≠ '/') = true :=
      List.any_eq_true.mpr ⟨c, by simp, decide_eq_true hc⟩
    rw [if_pos ⟨hne2, hany⟩]
    unfold rstripSlash
    rw [List.reverse_reverse, List.dropWhile_cons, if_pos (by decide),
      List.dropWhile_cons, if_neg (by simp [hc])]
  have hsatdot : ∀ a ∈ tl.reverse, decide (a ≠ '.' ∧ a ≠ '/') = true := by
    intro a ha
    exact decide_eq_true ⟨(htl a (List.mem_reverse.mp ha)).1,
      (htl a (List.mem_reverse.mp ha)).2⟩
  have hsat3 : ∀ a ∈ (a0 :: rest).reverse, decide (a ≠ '/') = true := fun a ha =>
    decide_eq_true (fun hcon => hslash (hcon ▸ List.mem_reverse.mp ha))
  have hallfalse : ((a0 :: rest).reverse.all (fun c2 => c2 = '.')) = false := by
    rw [Bool.eq_false_iff]
    intro hall
    have ha0d := List.all_eq_true.mp hall a0 (by simp)
    rw [decide_eq_true_eq] at ha0d
    exact hdot (by rw [← ha0d]; exact List.mem_cons_self a0 rest)
  have hrev2 : ((a0 :: rest) ++ '.' :: tl).reverse
      = tl.reverse ++ '.' :: (a0 :: rest).reverse := by
    simp
  have hsplit : pySplitExt ((a0 :: rest) ++ '.' :: tl) = (a0 :: rest, '.' :: tl) := by
    simp only [pySplitExt]
    rw [hrev2, takeWhile_append_sat _ _ _ hsatdot, dropWhile_append_sat _ _ _ hsatdot,
      List.takeWhile_cons, List.dropWhile_cons, if_neg (by decide), if_neg (by decide)]
    dsimp only
    rw [if_pos rfl, takeWhile_eq_self_of_sat _ _ hsat3,
      if_neg (by rw [hallfalse]; exact Bool.false_ne_true)]
    simp
  have hbasefile :
      base_filename ((c :: d).reverse ++ '/' :: ((a0 :: rest) ++ '.' :: tl))
        = a0 :: rest := by
    unfold base_filename
    rw [hbase, hsplit]
  have hdirne : (c :: d).reverse ≠ [] := by simp
  have hlast : ((c :: d).reverse).getLast? = some c := by
    rw [← List.head?_reverse, List.reverse_reverse]
    rfl
  have hout_dir :
      output_dir ((c :: d).reverse ++ '/' :: ((a0 :: rest) ++ '.' :: tl))
        = (c :: d).reverse ++ '/' :: '.' :: '.' :: [] := by
    unfold output_dir
    rw [hdir]
    unfold pyJoin
    rw [if_neg (by decide), if_neg (by simp [hdirne, hlast, hc]),
      show ("..".data : List Char) = '.' :: '.' :: [] from by decide]
  refine ⟨hbasefile, hout_dir, ?_⟩
  have hlast2 : ((c :: d).reverse ++ '/' :: '.' :: '.' :: []).getLast? = some '.' := by
    rw [← List.head?_reverse]
    simp
  unfold output_path
  rw [hbasefile, hout_dir,
    show (".png".data : List Char) = '.' :: 'p' :: 'n' :: 'g' :: [] from by decide]
  unfold pyJoin
  rw [if_neg (by simp [ha0]), if_neg (by simp [hlast2])]
  simp [List.append_assoc]

/-- Witness for C5 at the concrete input /t/raw/img.jpg with suffix _C: the
output path is /t/raw/../img_C.png, a PNG next to the raw directory. -/
theorem claim_C5_output_naming_witness :
    output_path "/t/raw/img.jpg".data "_C" = "/t/raw/../img_C.png".data := by
  have harg : ("/t/raw/img.jpg".data : List Char) =
      ('w' :: ['a', 'r', '/', 't', '/']).reverse ++
        '/' :: ("img".data ++ '.' :: "jpg".data) := by decide
  have h := (claim_C5_output_naming 'w' ['a', 'r', '/', 't', '/'] "img".data
    "jpg".data "_C" (by decide) (by decide) (by decide) (by decide) (by decide)).2.2
  rw [harg, h]
  decide
